import Mathlib

/-!
Verification of the core logic of the MakeItFast FM-station tracker.

The development shallowly embeds the repository's pure logic:
  * the memoizing distance cache (`src/hooks/useOptimizedFilters.ts`, class `DistanceCache`),
  * the filter/sort pipeline (`useOptimizedFilters`),
  * coordinate grouping (`src/services/stationService.ts`),
  * the marker icon classifier (`src/components/Map.tsx`),
  * the optimistic station update flow (`src/components/OptimizedFMStationClient.tsx`),
  * the per-station PATCH endpoint (`src/app/api/stations/[id]/route.ts`, both the
    prisma and the supabase snapshots present in the repository).

JavaScript numbers are modelled as exact rationals (inputs) and exact reals (results of
the trigonometric distance computation); JS `Map`s and plain objects are modelled as
insertion-ordered association lists.
-/

set_option maxRecDepth 16384

namespace MakeItFast

/-! ## Insertion-ordered association map (ECMAScript `Map` / plain object) -/

/-- `Map.get` / property access: first entry with the given key, if any. -/
def mapGet {κ V : Type} [DecidableEq κ] : List (κ × V) → κ → Option V
  | [], _ => none
  | (k', v) :: rest, k => if k' = k then some v else mapGet rest k

theorem mapGet_mem {κ V : Type} [DecidableEq κ] {c : List (κ × V)} {k : κ} {v : V}
    (h : mapGet c k = some v) : (k, v) ∈ c := by
  induction c with
  | nil => simp [mapGet] at h
  | cons kv rest ih =>
      obtain ⟨k', v'⟩ := kv
      by_cases hk : k' = k
      · subst hk
        simp [mapGet] at h
        simp [h]
      · simp [mapGet, hk] at h
        exact List.mem_cons_of_mem _ (ih h)

theorem mapGet_append_single_none {κ V : Type} [DecidableEq κ]
    (c : List (κ × V)) (k k' : κ) (v : V)
    (h : mapGet c k' = none) (hne : k ≠ k') : mapGet (c ++ [(k, v)]) k' = none := by
  induction c with
  | nil => simp [mapGet, hne]
  | cons kv rest ih =>
      obtain ⟨k₀, v₀⟩ := kv
      simp only [List.cons_append, mapGet] at h ⊢
      by_cases hk : k₀ = k'
      · rw [if_pos hk] at h; simp at h
      · rw [if_neg hk] at h ⊢; exact ih h

/-! ## Distance cache (`DistanceCache` in `src/hooks/useOptimizedFilters.ts`)

The cache key is the string
`lat1.toFixed(4) ++ "," ++ lon1.toFixed(4) ++ "-" ++ lat2.toFixed(4) ++ "," ++ lon2.toFixed(4)`.
`toFixed(4)` renders the sign of the number followed by the magnitude rounded
half-up to 4 decimal places, and the concatenation of the four rendered components with
the fixed separators is injective in the four (sign, magnitude) pairs, so the key is
modelled as the 4-tuple of those pairs. -/

abbrev Coords := ℚ × ℚ × ℚ × ℚ

/-- One coordinate as rendered by `Number.prototype.toFixed(4)`: the sign, and the
magnitude `⌊|x|·10⁴ + 1/2⌋` (round half-up on the magnitude, per the ECMAScript spec). -/
def roundCoordKey (x : ℚ) : Bool × ℤ := (decide (x < 0), ⌊|x| * 10000 + 1/2⌋)

abbrev CacheKey := (Bool × ℤ) × (Bool × ℤ) × (Bool × ℤ) × (Bool × ℤ)

/-- `DistanceCache.getCacheKey`. -/
def getCacheKey : Coords → CacheKey
  | (lat1, lon1, lat2, lon2) =>
      (roundCoordKey lat1, roundCoordKey lon1, roundCoordKey lat2, roundCoordKey lon2)

/-- The cache contents, oldest entry first (JS `Map` preserves insertion order). -/
abbrev CacheState (V : Type) := List (CacheKey × V)

/-- `this.maxCacheSize = 1000`. -/
def maxCacheSize : ℕ := 1000

/-- One `getDistance` call, generic in the value computed on a miss (`f`):
return the cached value if the key is present; otherwise, if the size exceeds
`maxCacheSize`, keep only the most recent `maxCacheSize / 2` entries
(`entries.slice(-this.maxCacheSize / 2)`), then compute, store and return. -/
def getDistanceStep {V : Type} (f : Coords → V) (cache : CacheState V) (q : Coords) :
    V × CacheState V :=
  let key := getCacheKey q
  match mapGet cache key with
  | some v => (v, cache)
  | none =>
      let cache1 := if maxCacheSize < cache.length
        then cache.drop (cache.length - maxCacheSize / 2) else cache
      let v := f q
      (v, cache1 ++ [(key, v)])

/-- The cache state after one `getDistance` call. -/
def stepCache {V : Type} (f : Coords → V) (cache : CacheState V) (q : Coords) : CacheState V :=
  (getDistanceStep f cache q).2

/-- The cache state after a sequence of `getDistance` calls starting from a fresh cache. -/
def runCalls {V : Type} (f : Coords → V) (calls : List Coords) : CacheState V :=
  calls.foldl (stepCache f) []

/-- `DistanceCache.getStats`: current size and capacity. -/
def getStats {V : Type} (cache : CacheState V) : ℕ × ℕ := (cache.length, maxCacheSize)

theorem length_stepCache {V : Type} (f : Coords → V) (c : CacheState V) (q : Coords)
    (h : c.length ≤ maxCacheSize + 1) : (stepCache f c q).length ≤ maxCacheSize + 1 := by
  unfold stepCache getDistanceStep
  cases hfind : mapGet c (getCacheKey q) with
  | some v => simpa [hfind] using h
  | none =>
      simp only [hfind]
      by_cases hlen : maxCacheSize < c.length
      · simp only [hlen, if_true, List.length_append, List.length_drop, List.length_cons,
          List.length_nil]
        omega
      · simp only [hlen, if_false, List.length_append, List.length_cons, List.length_nil]
        omega

theorem length_foldl_stepCache {V : Type} (f : Coords → V) :
    ∀ (calls : List Coords) (c : CacheState V),
      c.length ≤ maxCacheSize + 1 →
      (calls.foldl (stepCache f) c).length ≤ maxCacheSize + 1
  | [], _, h => h
  | q :: rest, c, h =>
      length_foldl_stepCache f rest (stepCache f c q) (length_stepCache f c q h)

/-- A run of calls that all miss (fresh keys, no eviction reached) simply appends
one entry per call. -/
theorem foldl_stepCache_fresh {V : Type} (f : Coords → V) :
    ∀ (l : List Coords) (c : CacheState V),
      (∀ q ∈ l, mapGet c (getCacheKey q) = none) →
      (l.map getCacheKey).Nodup →
      c.length + l.length ≤ maxCacheSize + 1 →
      l.foldl (stepCache f) c = c ++ l.map (fun q => (getCacheKey q, f q)) := by
  intro l
  induction l with
  | nil => intro c _ _ _; simp
  | cons q rest ih =>
      intro c hmiss hnodup hlen
      have hq : mapGet c (getCacheKey q) = none := hmiss q (List.mem_cons_self q rest)
      have hstep : stepCache f c q = c ++ [(getCacheKey q, f q)] := by
        unfold stepCache getDistanceStep
        simp only [hq]
        have : ¬ maxCacheSize < c.length := by
          simp only [List.length_cons] at hlen; omega
        simp [this]
      have hkey_ne : ∀ q' ∈ rest, getCacheKey q ≠ getCacheKey q' := by
        intro q' hq' heq
        simp only [List.map_cons, List.nodup_cons] at hnodup
        exact hnodup.1 (heq ▸ List.mem_map_of_mem getCacheKey hq')
      have hmiss' : ∀ q' ∈ rest, mapGet (c ++ [(getCacheKey q, f q)]) (getCacheKey q') = none := by
        intro q' hq'
        exact mapGet_append_single_none c _ _ _ (hmiss q' (List.mem_cons_of_mem q hq'))
          (hkey_ne q' hq')
      have hnodup' : (rest.map getCacheKey).Nodup := by
        simp only [List.map_cons, List.nodup_cons] at hnodup
        exact hnodup.2
      have hlen' : (c ++ [(getCacheKey q, f q)]).length + rest.length ≤ maxCacheSize + 1 := by
        simp only [List.length_append, List.length_cons, List.length_nil]
        simp only [List.length_cons] at hlen
        omega
      calc (q :: rest).foldl (stepCache f) c
      _ = rest.foldl (stepCache f) (c ++ [(getCacheKey q, f q)]) := by
            simp [List.foldl_cons, hstep]
      _ = c ++ [(getCacheKey q, f q)] ++ rest.map (fun q' => (getCacheKey q', f q')) :=
            ih _ hmiss' hnodup' hlen'
      _ = c ++ (q :: rest).map (fun q' => (getCacheKey q', f q')) := by
            simp [List.append_assoc]

/-- Every entry of the cache after a run is either inherited from the starting cache or
was computed by `f` on one of the calls. -/
theorem mem_foldl_stepCache {V : Type} (f : Coords → V) :
    ∀ (l : List Coords) (c : CacheState V) (kv : CacheKey × V),
      kv ∈ l.foldl (stepCache f) c →
      kv ∈ c ∨ ∃ q ∈ l, kv = (getCacheKey q, f q) := by
  intro l
  induction l with
  | nil => intro c kv h; exact Or.inl h
  | cons q rest ih =>
      intro c kv h
      simp only [List.foldl_cons] at h
      rcases ih (stepCache f c q) kv h with hmem | ⟨q', hq', hkv⟩
      · unfold stepCache getDistanceStep at hmem
        cases hfind : mapGet c (getCacheKey q) with
        | some v =>
            simp only [hfind] at hmem
            exact Or.inl hmem
        | none =>
            simp only [hfind] at hmem
            by_cases hlen : maxCacheSize < c.length
            · simp only [hlen, if_true, List.mem_append, List.mem_singleton] at hmem
              rcases hmem with hdrop | hnew
              · exact Or.inl (List.mem_of_mem_drop hdrop)
              · exact Or.inr ⟨q, List.mem_cons_self q rest, hnew⟩
            · simp only [hlen, if_false, List.mem_append, List.mem_singleton] at hmem
              rcases hmem with hold | hnew
              · exact Or.inl hold
              · exact Or.inr ⟨q, List.mem_cons_self q rest, hnew⟩
      · exact Or.inr ⟨q', List.mem_cons_of_mem q hq', hkv⟩

/-! ## The Haversine computation (`getDistance`, lines 36-45 of `useOptimizedFilters.ts`)

JS floating-point arithmetic is idealized as exact real arithmetic. -/

/-- `Math.atan2(y, x)` on finite inputs (signed zeros identified with zero). -/
noncomputable def atan2 (y x : ℝ) : ℝ :=
  if 0 < x then Real.arctan (y / x)
  else if x < 0 then
    (if 0 ≤ y then Real.arctan (y / x) + Real.pi else Real.arctan (y / x) - Real.pi)
  else if 0 < y then Real.pi / 2
  else if y < 0 then -(Real.pi / 2)
  else 0

/-- The Haversine distance exactly as computed on a cache miss: Earth radius `R = 6371`. -/
noncomputable def haversine (lat1 lon1 lat2 lon2 : ℝ) : ℝ :=
  let R : ℝ := 6371
  let dLat : ℝ := (lat2 - lat1) * Real.pi / 180
  let dLon : ℝ := (lon2 - lon1) * Real.pi / 180
  let a : ℝ := Real.sin (dLat / 2) * Real.sin (dLat / 2) +
    Real.cos (lat1 * Real.pi / 180) * Real.cos (lat2 * Real.pi / 180) *
      (Real.sin (dLon / 2) * Real.sin (dLon / 2))
  let c : ℝ := 2 * atan2 (Real.sqrt a) (Real.sqrt (1 - a))
  R * c

/-- The Haversine computation on the rational-valued call arguments. -/
noncomputable def haversineQ : Coords → ℝ
  | (lat1, lon1, lat2, lon2) => haversine (lat1 : ℝ) (lon1 : ℝ) (lat2 : ℝ) (lon2 : ℝ)

/-- The distance cache run with the actual Haversine computation of the source. -/
noncomputable def runDistanceCalls (calls : List Coords) : CacheState ℝ :=
  runCalls haversineQ calls

/-- The value returned by a `getDistance` call on `q` after the history `calls`. -/
noncomputable def getDistanceResult (calls : List Coords) (q : Coords) : ℝ :=
  (getDistanceStep haversineQ (runDistanceCalls calls) q).1

/-! ## Claim C1: the reported cache size -/

/-- 1001 calls on pairwise distinct keys: `getDistance(i, 0, 0, 0)` for `i = 0, …, 1000`. -/
def manyDistinctCalls : List Coords := (List.range 1001).map fun (i : ℕ) => ((i : ℚ), 0, 0, 0)

theorem roundCoordKey_natCast (n : ℕ) : roundCoordKey (n : ℚ) = (false, (n : ℤ) * 10000) := by
  unfold roundCoordKey
  have h0 : ¬ ((n : ℚ) < 0) := not_lt.2 (by positivity)
  have habs : |(n : ℚ)| = (n : ℚ) := abs_of_nonneg (by positivity)
  have hfloor : ⌊(n : ℚ) * 10000 + 1/2⌋ = (n : ℤ) * 10000 := by
    rw [Int.floor_eq_iff]
    refine ⟨by push_cast; linarith, by push_cast; linarith⟩
  rw [habs, hfloor, decide_eq_false h0]

theorem manyDistinctCalls_length : manyDistinctCalls.length = 1001 := by
  unfold manyDistinctCalls
  rw [List.length_map, List.length_range]

theorem manyDistinctCalls_keys_nodup : (manyDistinctCalls.map getCacheKey).Nodup := by
  have hmap : manyDistinctCalls.map getCacheKey =
      (List.range 1001).map (fun (i : ℕ) =>
        (((false, (i : ℤ) * 10000) : Bool × ℤ), roundCoordKey 0, roundCoordKey 0,
          roundCoordKey 0)) := by
    unfold manyDistinctCalls
    rw [List.map_map]
    refine List.map_congr_left ?_
    intro i _
    show getCacheKey ((i : ℚ), 0, 0, 0) = _
    rw [getCacheKey, roundCoordKey_natCast i]
  rw [hmap]
  refine List.Nodup.map ?_ (List.nodup_range 1001)
  intro i j hij
  have h1 : ((false, (i : ℤ) * 10000) : Bool × ℤ) = (false, (j : ℤ) * 10000) :=
    congrArg Prod.fst hij
  have h2 : (i : ℤ) * 10000 = (j : ℤ) * 10000 := congrArg Prod.snd h1
  omega

/-- C1 counterexample: after inserting 1001 distinct (rounded) keys — more than 1000 —
the size reported by `getStats` is 1001, which exceeds 1000.  (The eviction check
`size > maxCacheSize` runs before an insertion and fires only once the size already
exceeds 1000, so the 1001st fresh insertion is admitted without eviction.) -/
theorem cache_size_exceeds_1000 :
    manyDistinctCalls.length = 1001 ∧
    (manyDistinctCalls.map getCacheKey).Nodup ∧
    1000 < (getStats (runDistanceCalls manyDistinctCalls)).1 := by
  refine ⟨manyDistinctCalls_length, manyDistinctCalls_keys_nodup, ?_⟩
  have hrun : runDistanceCalls manyDistinctCalls =
      [] ++ manyDistinctCalls.map (fun q => (getCacheKey q, haversineQ q)) := by
    unfold runDistanceCalls runCalls
    refine foldl_stepCache_fresh haversineQ manyDistinctCalls []
      (fun q _ => rfl) manyDistinctCalls_keys_nodup ?_
    rw [List.length_nil, manyDistinctCalls_length]
    norm_num [maxCacheSize]
  rw [hrun, List.nil_append]
  show 1000 < (manyDistinctCalls.map fun q => (getCacheKey q, haversineQ q)).length
  rw [List.length_map, manyDistinctCalls_length]
  norm_num

/-- C1 (amended): for every sequence of `getDistance` calls, the size reported by
`getStats` never exceeds 1001.  The bound 1001 is tight (see the counterexample):
the size-cap check runs before the insertion and only once the size already exceeds
1000, so the cache can momentarily hold 1001 entries. -/
theorem cache_size_bound (calls : List Coords) :
    (getStats (runDistanceCalls calls)).1 ≤ 1001 := by
  have := length_foldl_stepCache haversineQ calls [] (by simp [maxCacheSize])
  simpa [getStats, runDistanceCalls, runCalls, maxCacheSize] using this

/-! ## Claim C2: what value a `getDistance` call returns -/

/-- Rounding to 4 decimal places as a rational (the spec's "inputs rounded to 4 decimal
places", with `toFixed`'s round-half-up on the magnitude). -/
def round4 (x : ℚ) : ℚ := (if x < 0 then -1 else 1) * (⌊|x| * 10000 + 1/2⌋ : ℚ) / 10000

/-- The four inputs of a call, each rounded to 4 decimal places (the spec's reading). -/
def roundCoords : Coords → Coords
  | (lat1, lon1, lat2, lon2) => (round4 lat1, round4 lon1, round4 lat2, round4 lon2)

theorem haversine_zero : haversine 0 0 0 0 = 0 := by
  unfold haversine atan2
  norm_num [Real.sin_zero, Real.cos_zero, Real.sqrt_zero, Real.sqrt_one, Real.arctan_zero]

theorem haversine_pos_of_small_lat : 0 < haversine 0 0 (1/100000) 0 := by
  have hpi := Real.pi_pos
  set d : ℝ := (1/100000 : ℝ) * Real.pi / 180 / 2 with hd
  have hd_pos : 0 < d := by rw [hd]; positivity
  have hd_lt_one : d < 1 := by
    rw [hd]
    nlinarith [Real.pi_le_four]
  have hd_lt_pi : d < Real.pi := by
    rw [hd]; nlinarith
  have hs_pos : 0 < Real.sin d := Real.sin_pos_of_pos_of_lt_pi hd_pos hd_lt_pi
  have hs_lt_one : Real.sin d < 1 := lt_trans (Real.sin_lt hd_pos) hd_lt_one
  have ha_pos : 0 < Real.sin d * Real.sin d := mul_pos hs_pos hs_pos
  have ha_lt_one : Real.sin d * Real.sin d < 1 := by nlinarith
  have hsq_pos : 0 < Real.sqrt (Real.sin d * Real.sin d) := Real.sqrt_pos.2 ha_pos
  have hsq1_pos : 0 < Real.sqrt (1 - Real.sin d * Real.sin d) := Real.sqrt_pos.2 (by linarith)
  have hatan : 0 < atan2 (Real.sqrt (Real.sin d * Real.sin d))
      (Real.sqrt (1 - Real.sin d * Real.sin d)) := by
    unfold atan2
    rw [if_pos hsq1_pos]
    have harg : 0 < Real.sqrt (Real.sin d * Real.sin d) /
        Real.sqrt (1 - Real.sin d * Real.sin d) := div_pos hsq_pos hsq1_pos
    have := Real.arctan_strictMono harg
    rwa [Real.arctan_zero] at this
  have hlat : ((1/100000 : ℝ) - 0) * Real.pi / 180 / 2 = d := by rw [hd]; ring
  have hlon : ((0 : ℝ) - 0) * Real.pi / 180 / 2 = 0 := by ring
  simp only [haversine]
  rw [hlat, hlon, Real.sin_zero]
  have hrw : Real.sin d * Real.sin d +
      Real.cos (0 * Real.pi / 180) * Real.cos (1/100000 * Real.pi / 180) * (0 * 0) =
      Real.sin d * Real.sin d := by ring
  rw [hrw]
  positivity

/-- C2 counterexample: the very first `getDistance(0, 0, 0.00001, 0)` call returns the
Haversine of the exact inputs, which is a strictly positive distance, while the
Haversine of the inputs rounded to 4 decimal places (`(0, 0, 0, 0)`) is `0`. -/
theorem round4_small_nonneg {x : ℚ} (h0 : 0 ≤ x) (h1 : x * 10000 + 1/2 < 1) : round4 x = 0 := by
  unfold round4
  have hlt : ¬ x < 0 := not_lt.2 h0
  have habs : |x| = x := abs_of_nonneg h0
  have hfloor : ⌊x * 10000 + 1/2⌋ = 0 := by
    rw [Int.floor_eq_iff]
    refine ⟨by push_cast; nlinarith, by push_cast; linarith⟩
  rw [if_neg hlt, habs, hfloor]
  norm_num

theorem getDistance_ne_haversine_of_rounded :
    getDistanceResult [] (0, 0, 1/100000, 0) ≠ haversineQ (roundCoords (0, 0, 1/100000, 0)) := by
  have hr0 : round4 0 = 0 := round4_small_nonneg le_rfl (by norm_num)
  have hre : round4 (1/100000) = 0 := round4_small_nonneg (by norm_num) (by norm_num)
  have hrounded : roundCoords (0, 0, 1/100000, 0) = (0, 0, 0, 0) := by
    show (round4 0, round4 0, round4 (1/100000), round4 0) = (0, 0, 0, 0)
    rw [hr0, hre]
  have hfirst : getDistanceResult [] (0, 0, 1/100000, 0) = haversineQ (0, 0, 1/100000, 0) := by
    unfold getDistanceResult runDistanceCalls runCalls getDistanceStep
    simp [mapGet, maxCacheSize]
  rw [hrounded, hfirst]
  have h0 : haversineQ ((0 : ℚ), (0 : ℚ), (0 : ℚ), (0 : ℚ)) = 0 := by
    unfold haversineQ
    push_cast
    exact haversine_zero
  have hpos : 0 < haversineQ ((0 : ℚ), (0 : ℚ), (1/100000 : ℚ), (0 : ℚ)) := by
    unfold haversineQ
    push_cast
    exact haversine_pos_of_small_lat
  rw [h0]
  exact ne_of_gt hpos

/-- C2 (amended): every `getDistance` call returns the direct Haversine computation for
the exact (unrounded) inputs of some call whose four coordinates round to the same
4-decimal key — the current call itself on a miss — regardless of cache eviction.
It is not, in general, the Haversine of the rounded inputs. -/
theorem getDistance_returns_haversine_of_key_matching_call (calls : List Coords) (q : Coords) :
    ∃ q', getCacheKey q' = getCacheKey q ∧ q' ∈ calls ++ [q] ∧
      getDistanceResult calls q = haversineQ q' := by
  unfold getDistanceResult getDistanceStep
  cases hfind : mapGet (runDistanceCalls calls) (getCacheKey q) with
  | some v =>
      have hmem := mapGet_mem hfind
      rcases mem_foldl_stepCache haversineQ calls [] _ hmem with hnil | ⟨q', hq', hkv⟩
      · simp at hnil
      · have hk : getCacheKey q = getCacheKey q' := congrArg Prod.fst hkv
        have hv : v = haversineQ q' := congrArg Prod.snd hkv
        exact ⟨q', hk.symm, List.mem_append_left _ hq', by simp [hfind, hv]⟩
  | none =>
      refine ⟨q, rfl, List.mem_append_right _ (List.mem_singleton_self q), ?_⟩
      simp [hfind]

/-! ## Station data model (`src/types/station.ts`, interface `FMStation`)

Fields not read by any modelled operation (`website`, `transmitterPower`, `permit`,
`inspection67`, `type`, `createdAt`, `updatedAt`) are omitted. Optional fields are
`Option`s (`none` = absent/undefined). -/

/-- `id: string | number`. -/
inductive StationId
  | num (n : ℤ)
  | str (s : String)
deriving DecidableEq

structure Station where
  id : StationId
  name : String
  frequency : ℚ
  latitude : ℚ
  longitude : ℚ
  city : String
  state : String
  genre : String
  description : Option String
  inspection68 : Option String
  dateInspected : Option String
  details : Option String
  onAir : Option Bool
  unwanted : Option Bool
  submitRequest : Option String
deriving DecidableEq

/-- `UserLocation` (`src/types/station.ts`). -/
structure UserLocation where
  latitude : ℚ
  longitude : ℚ
  accuracy : Option ℚ
  heading : Option ℚ
  speed : Option ℚ
deriving DecidableEq

/-- `FilterType` as consumed by `useOptimizedFilters`: `onAir` is set or absent; the
string-valued filters use the empty string for "unset" (JS falsiness of `''` and of
`undefined` coincide for every use below). -/
structure FilterState where
  onAir : Option Bool
  city : String
  province : String
  inspection : String
  search : String
  submitRequest : String
deriving DecidableEq

/-! ## JS string operations used by the search filter -/

/-- `String.prototype.toLowerCase` restricted to its effect on ASCII letters (the
data contains ASCII and Thai; Thai has no case). -/
def lowerChar (c : Char) : Char :=
  if 'A' ≤ c ∧ c ≤ 'Z' then Char.ofNat (c.toNat + 32) else c

def lowerStr (s : String) : String := ⟨s.data.map lowerChar⟩

/-- `a.includes(b)`: substring containment. -/
def jsIncludes (s sub : String) : Bool := decide (sub.data <:+: s.data)

/-- `s.startsWith('#')`. -/
def startsWithHash (s : String) : Bool :=
  match s.data with
  | [] => false
  | c :: _ => decide (c = '#')

theorem lowerStr_append (a b : String) : lowerStr (a ++ b) = lowerStr a ++ lowerStr b := by
  unfold lowerStr
  apply congrArg String.mk
  rw [String.data_append]
  rw [List.map_append]

/-! ## Filter predicates and the filter pipeline
(`useOptimizedFilters.ts`, `filterPredicates` and `filteredStations`)

`Number.prototype.toString` for the frequency is kept as an explicit parameter
`numToString`; its digit-rendering algorithm is outside the modelled scope and no
claim depends on it. -/

def cityPredicate (fs : FilterState) : Option (Station → Bool) :=
  if fs.city ≠ "" then some (fun st => decide (st.city = fs.city)) else none

def provincePredicate (fs : FilterState) : Option (Station → Bool) :=
  if fs.province ≠ "" then some (fun st => decide (st.state = fs.province)) else none

def inspectionPredicate (fs : FilterState) : Option (Station → Bool) :=
  if fs.inspection ≠ "" then some (fun st => decide (st.inspection68 = some fs.inspection))
  else none

def onAirPredicate (fs : FilterState) : Option (Station → Bool) :=
  match fs.onAir with
  | some b => some (fun st => decide (st.onAir = some b))
  | none => none

/-- Special case in the source: the `submitRequest` filter is built only when the
filter value is exactly the sentinel `'ไม่ยื่น'`. -/
def submitRequestPredicate (fs : FilterState) : Option (Station → Bool) :=
  if fs.submitRequest = "ไม่ยื่น" then some (fun st => decide (st.submitRequest = some "ไม่ยื่น"))
  else none

/-- The search predicate (lines 102-119 of `useOptimizedFilters.ts`). -/
def searchMatches (numToString : ℚ → String) (query : String) (st : Station) : Bool :=
  let searchLower := lowerStr query
  let searchTerm := query
  jsIncludes (lowerStr st.name) searchLower ||
  (match st.description with
    | some d => jsIncludes (lowerStr d) searchLower
    | none => false) ||
  jsIncludes (lowerStr st.genre) searchLower ||
  jsIncludes (lowerStr st.city) searchLower ||
  jsIncludes (lowerStr st.state) searchLower ||
  (match st.details with
    | some d => jsIncludes (lowerStr d) searchLower
    | none => false) ||
  jsIncludes (numToString st.frequency) searchTerm ||
  (startsWithHash searchLower &&
    (match st.details with
      | some d => jsIncludes (lowerStr d) searchLower
      | none => false)) ||
  (!startsWithHash searchLower &&
    (match st.details with
      | some d => jsIncludes (lowerStr d) ("#" ++ searchLower)
      | none => false))

def searchPredicate (numToString : ℚ → String) (fs : FilterState) : Option (Station → Bool) :=
  if fs.search ≠ "" then some (searchMatches numToString fs.search) else none

/-- Apply one of the optional predicates: `filtered = filtered.filter(pred)` when the
predicate was built, otherwise leave the list alone. -/
def applyIf (p : Option (Station → Bool)) (l : List Station) : List Station :=
  match p with
  | some f => l.filter f
  | none => l

/-- The `filteredStations` memo: early return on an empty input, then the filters in
source order — city, province, inspection, onAir, submitRequest, search. -/
def filteredStations (numToString : ℚ → String) (stations : List Station)
    (fs : FilterState) : List Station :=
  if stations.isEmpty then []
  else
    applyIf (searchPredicate numToString fs)
      (applyIf (submitRequestPredicate fs)
        (applyIf (onAirPredicate fs)
          (applyIf (inspectionPredicate fs)
            (applyIf (provincePredicate fs)
              (applyIf (cityPredicate fs) stations)))))

theorem filter_comm_station (p q : Station → Bool) (l : List Station) :
    (l.filter p).filter q = (l.filter q).filter p := by
  induction l with
  | nil => rfl
  | cons a l ih =>
      by_cases hp : p a = true <;> by_cases hq : q a = true <;>
        simp [List.filter_cons, hp, hq, ih]

/-- C5: the pipeline filters on `submitRequest` only when the filter value is the
explicitly-not-submitted sentinel `'ไม่ยื่น'`, in which case exactly the stations whose
`submitRequest` equals the sentinel survive that stage; for any other value the
`submitRequest` filter excludes no station. -/
theorem submitRequest_filter_characterization (numToString : ℚ → String)
    (stations : List Station) (fs : FilterState) :
    filteredStations numToString stations fs =
      (if fs.submitRequest = "ไม่ยื่น"
        then (filteredStations numToString stations { fs with submitRequest := "" }).filter
          (fun st => decide (st.submitRequest = some "ไม่ยื่น"))
        else filteredStations numToString stations { fs with submitRequest := "" }) := by
  have hstage : ∀ g : FilterState, g.submitRequest = "" →
      ∀ l, applyIf (submitRequestPredicate g) l = l := by
    intro g hg l
    unfold submitRequestPredicate
    rw [hg]
    simp [applyIf]
  unfold filteredStations
  by_cases hempty : stations.isEmpty
  · simp [hempty]
  · simp only [hempty, if_false]
    have hsame : applyIf (onAirPredicate { fs with submitRequest := "" })
        (applyIf (inspectionPredicate { fs with submitRequest := "" })
          (applyIf (provincePredicate { fs with submitRequest := "" })
            (applyIf (cityPredicate { fs with submitRequest := "" }) stations))) =
        applyIf (onAirPredicate fs)
          (applyIf (inspectionPredicate fs)
            (applyIf (provincePredicate fs)
              (applyIf (cityPredicate fs) stations))) := rfl
    by_cases hsub : fs.submitRequest = "ไม่ยื่น"
    · rw [if_pos hsub]
      rw [hstage { fs with submitRequest := "" } rfl, hsame]
      set l4 := applyIf (onAirPredicate fs)
        (applyIf (inspectionPredicate fs)
          (applyIf (provincePredicate fs)
            (applyIf (cityPredicate fs) stations))) with hl4
      have hsubmit : applyIf (submitRequestPredicate fs) l4 =
          l4.filter (fun st => decide (st.submitRequest = some "ไม่ยื่น")) := by
        unfold submitRequestPredicate
        rw [if_pos hsub]
        rfl
      rw [hsubmit]
      show applyIf (searchPredicate numToString fs) _ =
        (applyIf (searchPredicate numToString { fs with submitRequest := "" }) l4).filter _
      have hsearch : searchPredicate numToString { fs with submitRequest := "" } =
          searchPredicate numToString fs := rfl
      rw [hsearch]
      cases hsp : searchPredicate numToString fs with
      | none => simp [applyIf]
      | some f => simp only [applyIf]; exact filter_comm_station _ _ l4
    · rw [if_neg hsub]
      rw [hstage { fs with submitRequest := "" } rfl, hsame]
      have hnone : submitRequestPredicate fs = none := by
        unfold submitRequestPredicate
        rw [if_neg hsub]
      rw [hnone]
      rfl

/-- C6: a station whose `details` is a hashtag-prefixed tag is matched by the search
filter both for the query without the leading `#` and for the query with it,
case-insensitively (the hypothesis constrains only the lowercased forms). -/
theorem search_hashtag_symmetry (numToString : ℚ → String) (st : Station) (d t : String)
    (hd : st.details = some d) (hlow : lowerStr d = "#" ++ lowerStr t) :
    searchMatches numToString t st = true ∧
    searchMatches numToString ("#" ++ t) st = true := by
  constructor
  · have hclause : jsIncludes (lowerStr d) (lowerStr t) = true := by
      unfold jsIncludes
      rw [hlow]
      refine decide_eq_true ?_
      have hsuffix : (lowerStr t).data <:+ ("#" ++ lowerStr t).data := by
        rw [String.data_append]
        show (lowerStr t).data <:+ "#".data ++ (lowerStr t).data
        exact (List.suffix_append _ _)
      exact hsuffix.isInfix
    simp [searchMatches, hd, hclause]
  · have hclause : jsIncludes (lowerStr d) (lowerStr ("#" ++ t)) = true := by
      unfold jsIncludes
      rw [lowerStr_append, hlow]
      have h1 : lowerStr "#" = "#" := rfl
      rw [h1]
      exact decide_eq_true (List.infix_refl _)
    simp [searchMatches, hd, hclause]

/-- C6 witness: a station with `details = '#deviation'` is matched both by the query
`deviation` and by the query `#deviation`. -/
def devStation : Station :=
  { id := StationId.num 1, name := "Radio One", frequency := 101, latitude := 13,
    longitude := 100, city := "Dusit", state := "Bangkok", genre := "Public",
    description := none, inspection68 := some "ตรวจแล้ว", dateInspected := none,
    details := some "#deviation", onAir := some true, unwanted := none,
    submitRequest := some "ยื่น" }

theorem search_hashtag_symmetry_witness :
    searchMatches (fun _ => "") "deviation" devStation = true ∧
    searchMatches (fun _ => "") "#deviation" devStation = true :=
  search_hashtag_symmetry (fun _ => "") devStation "#deviation" "deviation" rfl (by decide)

/-! ## Sorting by cached distance (`sortedStations` memo, lines 163-188)

`Array.prototype.sort` with the comparator `a.distance - b.distance` is, per the
ECMAScript spec, a stable sort consistent with the total preorder "distance ≤"; a
stable sort for a total preorder is unique, so it is modelled by insertion sort with
respect to that preorder. -/

def pairLE (p q : Station × ℝ) : Prop := p.2 ≤ q.2

noncomputable instance : DecidableRel pairLE := fun p q => Real.decidableLE p.2 q.2

instance : IsTotal (Station × ℝ) pairLE := ⟨fun p q => le_total p.2 q.2⟩

instance : IsTrans (Station × ℝ) pairLE := ⟨fun _ _ _ h1 h2 => le_trans h1 h2⟩

/-- `filteredStations.map(station => ({...station, distance: distanceCache.getDistance(
userLocation.latitude, userLocation.longitude, station.latitude, station.longitude)}))`:
attach the cached distance to each station, threading the cache left to right. -/
noncomputable def attachDistances (loc : UserLocation) :
    CacheState ℝ → List Station → List (Station × ℝ) × CacheState ℝ
  | c, [] => ([], c)
  | c, st :: rest =>
      let r := getDistanceStep haversineQ c
        (loc.latitude, loc.longitude, st.latitude, st.longitude)
      let rest' := attachDistances loc r.2 rest
      ((st, r.1) :: rest'.1, rest'.2)

/-- The `sortedStations` memo: return the filtered list unchanged when there is no
user location or the list is empty; otherwise attach distances, stable-sort ascending
by distance, and strip the transient distance field. -/
noncomputable def sortedStations (c : CacheState ℝ) (u : Option UserLocation)
    (filtered : List Station) : List Station :=
  match u with
  | none => filtered
  | some loc =>
      if filtered.isEmpty then filtered
      else (((attachDistances loc c filtered).1).insertionSort pairLE).map Prod.fst

theorem attachDistances_fst (loc : UserLocation) :
    ∀ (c : CacheState ℝ) (l : List Station), ((attachDistances loc c l).1).map Prod.fst = l := by
  intro c l
  induction l generalizing c with
  | nil => rfl
  | cons st rest ih => simp [attachDistances, ih]

theorem filter_orderedInsert_key {v : ℝ} {a : Station × ℝ} (ha : a.2 = v) :
    ∀ l : List (Station × ℝ),
      (l.orderedInsert pairLE a).filter (fun p => decide (p.2 = v)) =
        a :: l.filter (fun p => decide (p.2 = v)) := by
  intro l
  induction l with
  | nil => simp [List.orderedInsert, List.filter, ha]
  | cons b l ih =>
      by_cases hab : pairLE a b
      · rw [List.orderedInsert_of_le pairLE l hab]
        simp [List.filter_cons, ha]
      · have hb : b.2 < a.2 := not_le.mp (fun h => hab h)
        have hbv : ¬ (b.2 = v) := by rw [← ha]; exact ne_of_lt hb
        show ((if pairLE a b then a :: b :: l else b :: l.orderedInsert pairLE a).filter
          (fun p => decide (p.2 = v))) = _
        rw [if_neg hab]
        simp [List.filter_cons, hbv, ih]

theorem filter_orderedInsert_ne {v : ℝ} {a : Station × ℝ} (ha : ¬ a.2 = v) :
    ∀ l : List (Station × ℝ),
      (l.orderedInsert pairLE a).filter (fun p => decide (p.2 = v)) =
        l.filter (fun p => decide (p.2 = v)) := by
  intro l
  induction l with
  | nil => simp [List.orderedInsert, List.filter, ha]
  | cons b l ih =>
      by_cases hab : pairLE a b
      · rw [List.orderedInsert_of_le pairLE l hab]
        simp [List.filter_cons, ha]
      · show ((if pairLE a b then a :: b :: l else b :: l.orderedInsert pairLE a).filter
          (fun p => decide (p.2 = v))) = _
        rw [if_neg hab]
        by_cases hbv : b.2 = v
        · simp [List.filter_cons, hbv, ih]
        · simp [List.filter_cons, hbv, ih]

/-- Stability of the modelled sort: restricting to the pairs at any fixed distance
commutes with sorting, i.e. ties keep their original relative order. -/
theorem filter_insertionSort_eq (v : ℝ) :
    ∀ l : List (Station × ℝ),
      (l.insertionSort pairLE).filter (fun p => decide (p.2 = v)) =
        l.filter (fun p => decide (p.2 = v)) := by
  intro l
  induction l with
  | nil => rfl
  | cons a l ih =>
      show ((l.insertionSort pairLE).orderedInsert pairLE a).filter (fun p => decide (p.2 = v)) = _
      by_cases ha : a.2 = v
      · rw [filter_orderedInsert_key ha, ih]
        simp [List.filter_cons, ha]
      · rw [filter_orderedInsert_ne ha, ih]
        simp [List.filter_cons, ha]

/-- C7: with no user location the pipeline's output is the filter stage's output
unchanged; with a user location it is a permutation of the filtered list, sorted
ascending by the attached cached distance, sorted stably (pairs at any fixed distance
keep their filter-stage order), with the transient distance field stripped. -/
theorem sort_pipeline_characterization (c : CacheState ℝ) (loc : UserLocation)
    (l : List Station) :
    sortedStations c none l = l ∧
    (sortedStations c (some loc) l).Perm l ∧
    List.Sorted pairLE (((attachDistances loc c l).1).insertionSort pairLE) ∧
    (∀ v : ℝ,
      (((attachDistances loc c l).1).insertionSort pairLE).filter (fun p => decide (p.2 = v)) =
        ((attachDistances loc c l).1).filter (fun p => decide (p.2 = v))) ∧
    sortedStations c (some loc) l =
      (((attachDistances loc c l).1).insertionSort pairLE).map Prod.fst := by
  have hlast : sortedStations c (some loc) l =
      (((attachDistances loc c l).1).insertionSort pairLE).map Prod.fst := by
    unfold sortedStations
    by_cases hempty : l.isEmpty
    · have hnil : l = [] := List.isEmpty_iff.mp hempty
      subst hnil
      rfl
    · simp [hempty]
  refine ⟨rfl, ?_, List.sorted_insertionSort pairLE _, fun v => filter_insertionSort_eq v _, hlast⟩
  rw [hlast]
  have hperm := (List.perm_insertionSort pairLE ((attachDistances loc c l).1)).map Prod.fst
  rw [attachDistances_fst loc c l] at hperm
  exact hperm

/-! ## Coordinate grouping (`groupStationsByCoordinates`, `src/services/stationService.ts`)

The key is the unrounded string `lat + "," + long`; JS number-to-string is injective
on numbers and the comma separator makes the pair-to-string encoding injective, so the
key is modelled as the exact coordinate pair. -/

abbrev CoordKey := ℚ × ℚ

def coordKey (st : Station) : CoordKey := (st.latitude, st.longitude)

/-- Process one station: append it to its group if the key is present, otherwise
append a fresh singleton group (JS `Map` keeps first-insertion key order). -/
def insertGrouped (m : List (CoordKey × List Station)) (st : Station) :
    List (CoordKey × List Station) :=
  match m with
  | [] => [(coordKey st, [st])]
  | (k, g) :: rest =>
      if k = coordKey st then (k, g ++ [st]) :: rest else (k, g) :: insertGrouped rest st

/-- `groupStationsByCoordinates`. -/
def groupStationsByCoordinates (stations : List Station) : List (CoordKey × List Station) :=
  stations.foldl insertGrouped []

theorem mapGet_insertGrouped (m : List (CoordKey × List Station)) (st : Station)
    (k : CoordKey) :
    mapGet (insertGrouped m st) k =
      if coordKey st = k then some ((mapGet m k).getD [] ++ [st]) else mapGet m k := by
  induction m with
  | nil =>
      show mapGet [(coordKey st, [st])] k = _
      by_cases hk : coordKey st = k
      · rw [if_pos hk]
        simp [mapGet, hk]
      · rw [if_neg hk]
        simp [mapGet, hk]
  | cons kg rest ih =>
      obtain ⟨k₀, g₀⟩ := kg
      by_cases hins : k₀ = coordKey st
      · by_cases hk : k₀ = k
        · have hck : coordKey st = k := hins ▸ hk
          simp [insertGrouped, mapGet, hins, hk, hck]
        · have hck : ¬ coordKey st = k := fun h => hk (hins.trans h)
          simp [insertGrouped, mapGet, hins, hk, hck]
      · by_cases hk : k₀ = k
        · have hck : ¬ coordKey st = k := fun h => hins (hk.trans h.symm)
          have hinsk : ¬ k = coordKey st := fun h => hck h.symm
          simp [insertGrouped, mapGet, hins, hk, hck, hinsk]
        · simp [insertGrouped, mapGet, hins, hk, ih]

theorem mapGet_groupFold :
    ∀ (l : List Station) (m : List (CoordKey × List Station)) (k : CoordKey),
      mapGet (l.foldl insertGrouped m) k =
        match mapGet m k with
        | some g => some (g ++ l.filter (fun st => decide (coordKey st = k)))
        | none =>
            if (l.filter (fun st => decide (coordKey st = k))).isEmpty then none
            else some (l.filter (fun st => decide (coordKey st = k))) := by
  intro l
  induction l with
  | nil =>
      intro m k
      cases hm : mapGet m k <;> simp [hm]
  | cons st l ih =>
      intro m k
      show mapGet (l.foldl insertGrouped (insertGrouped m st)) k = _
      rw [ih (insertGrouped m st) k]
      rw [mapGet_insertGrouped m st k]
      by_cases hck : coordKey st = k
      · have hfil : (st :: l).filter (fun s => decide (coordKey s = k)) =
            st :: l.filter (fun s => decide (coordKey s = k)) := by
          simp [List.filter_cons, hck]
        rw [if_pos hck, hfil]
        cases hm : mapGet m k with
        | some g => simp
        | none => simp
      · have hfil : (st :: l).filter (fun s => decide (coordKey s = k)) =
            l.filter (fun s => decide (coordKey s = k)) := by
          simp [List.filter_cons, hck]
        rw [if_neg hck, hfil]

/-- C8: grouping looks up by the exact coordinate-pair key: the group stored at a key
is precisely the input's sublist of stations with exactly that key (hence insertion
order is preserved inside each group and every station lands in exactly one group);
and two stations of the input share a group exactly when their keys are equal. -/
theorem grouping_characterization (l : List Station) :
    (∀ k : CoordKey,
      mapGet (groupStationsByCoordinates l) k =
        (if (l.filter (fun st => decide (coordKey st = k))).isEmpty then none
         else some (l.filter (fun st => decide (coordKey st = k))))) ∧
    (∀ s t : Station, s ∈ l → t ∈ l →
      ((∃ k g, mapGet (groupStationsByCoordinates l) k = some g ∧ s ∈ g ∧ t ∈ g) ↔
        coordKey s = coordKey t)) := by
  have hmain : ∀ k : CoordKey,
      mapGet (groupStationsByCoordinates l) k =
        (if (l.filter (fun st => decide (coordKey st = k))).isEmpty then none
         else some (l.filter (fun st => decide (coordKey st = k)))) := by
    intro k
    unfold groupStationsByCoordinates
    rw [mapGet_groupFold l [] k]
    rfl
  refine ⟨hmain, ?_⟩
  intro s t hs ht
  constructor
  · rintro ⟨k, g, hg, hsg, htg⟩
    rw [hmain k] at hg
    by_cases hemp : (l.filter (fun st => decide (coordKey st = k))).isEmpty
    · rw [if_pos hemp] at hg; cases hg
    · rw [if_neg hemp] at hg
      have hgeq : l.filter (fun st => decide (coordKey st = k)) = g := Option.some_inj.mp hg
      subst hgeq
      have h1 : coordKey s = k := by
        have := List.of_mem_filter hsg
        exact of_decide_eq_true this
      have h2 : coordKey t = k := by
        have := List.of_mem_filter htg
        exact of_decide_eq_true this
      rw [h1, h2]
  · intro hkey
    refine ⟨coordKey s, l.filter (fun st => decide (coordKey st = coordKey s)), ?_, ?_, ?_⟩
    · rw [hmain (coordKey s)]
      have hmem : s ∈ l.filter (fun st => decide (coordKey st = coordKey s)) :=
        List.mem_filter.mpr ⟨hs, decide_eq_true rfl⟩
      rw [if_neg (by
        intro hemp
        rw [List.isEmpty_iff] at hemp
        rw [hemp] at hmem
        cases hmem)]
    · exact List.mem_filter.mpr ⟨hs, decide_eq_true rfl⟩
    · exact List.mem_filter.mpr ⟨ht, decide_eq_true hkey.symm⟩

/-- C8 witness: two stations at literally equal coordinates `(13.7563, 100.5018)`
group together; a third at `(13.75630001, 100.5018)` does not join their group. -/
def stationA : Station :=
  { id := StationId.num 1, name := "A", frequency := 90, latitude := 13.7563,
    longitude := 100.5018, city := "Dusit", state := "Bangkok", genre := "Public",
    description := none, inspection68 := none, dateInspected := none, details := none,
    onAir := some true, unwanted := none, submitRequest := none }

def stationB : Station :=
  { stationA with id := StationId.num 2, name := "B" }

def stationC : Station :=
  { stationA with id := StationId.num 3, name := "C", latitude := 13.75630001 }

theorem grouping_characterization_witness :
    (∃ k g, mapGet (groupStationsByCoordinates [stationA, stationB, stationC]) k = some g ∧
      stationA ∈ g ∧ stationB ∈ g) ∧
    ¬ (∃ k g, mapGet (groupStationsByCoordinates [stationA, stationB, stationC]) k = some g ∧
      stationA ∈ g ∧ stationC ∈ g) := by
  have hAC : coordKey stationA ≠ coordKey stationC := by
    intro h
    have h1 : (13.7563 : ℚ) = 13.75630001 := congrArg Prod.fst h
    norm_num at h1
  constructor
  · exact ((grouping_characterization [stationA, stationB, stationC]).2 stationA stationB
      (by simp) (by simp)).mpr rfl
  · intro hex
    exact hAC (((grouping_characterization [stationA, stationB, stationC]).2 stationA stationC
      (by simp) (by simp)).mp hex)

/-! ## Marker icon classification (`getStationIcon`, `src/components/Map.tsx`) -/

inductive StationIcon
  | black
  | grey
  | green
  | red
deriving DecidableEq

/-- `getStationIcon`: black for the explicitly-not-submitted sentinel, grey when the
station is not on air (`!station.onAir`, which is truthy for `false` and for absent),
green when inspected, red otherwise. -/
def getStationIcon (st : Station) : StationIcon :=
  if st.submitRequest = some "ไม่ยื่น" then StationIcon.black
  else if st.onAir ≠ some true then StationIcon.grey
  else if st.inspection68 = some "ตรวจแล้ว" then StationIcon.green
  else if st.inspection68 = some "ยังไม่ตรวจ" then StationIcon.red
  else StationIcon.red

/-- C9: the icon category is exactly one of four mutually exclusive categories, with
precedence explicitly-not-submitted → off-air → inspected → not-inspected/other. -/
theorem icon_categories (st : Station) :
    (getStationIcon st = StationIcon.black ↔ st.submitRequest = some "ไม่ยื่น") ∧
    (getStationIcon st = StationIcon.grey ↔
      st.submitRequest ≠ some "ไม่ยื่น" ∧ st.onAir ≠ some true) ∧
    (getStationIcon st = StationIcon.green ↔
      st.submitRequest ≠ some "ไม่ยื่น" ∧ st.onAir = some true ∧
        st.inspection68 = some "ตรวจแล้ว") ∧
    (getStationIcon st = StationIcon.red ↔
      st.submitRequest ≠ some "ไม่ยื่น" ∧ st.onAir = some true ∧
        st.inspection68 ≠ some "ตรวจแล้ว") := by
  unfold getStationIcon
  by_cases h1 : st.submitRequest = some "ไม่ยื่น" <;>
    by_cases h2 : st.onAir = some true <;>
      by_cases h3 : st.inspection68 = some "ตรวจแล้ว" <;>
        by_cases h4 : st.inspection68 = some "ยังไม่ตรวจ" <;>
          simp_all

/-! ## JSON values (for request bodies and server rows) -/

inductive JVal
  | jstr (s : String)
  | jbool (b : Bool)
  | jnull
deriving DecidableEq

/-! ## Optimistic station update flow
(`handleUpdateStation`, `src/components/OptimizedFMStationClient.tsx`, lines 261-349) -/

/-- `Partial<FMStation>` restricted to the fields the update flow's callers write
(toggle on-air, toggle inspection status, set/clear a detail tag); `none` = field
absent from the partial object. -/
structure StationUpdates where
  onAir : Option Bool
  inspection68 : Option String
  details : Option String
deriving DecidableEq

/-- The spread `{ ...station, ...updates }`. -/
def mergeUpdates (st : Station) (u : StationUpdates) : Station :=
  { st with
      onAir := match u.onAir with | some b => some b | none => st.onAir
      inspection68 := match u.inspection68 with | some s => some s | none => st.inspection68
      details := match u.details with | some s => some s | none => st.details }

/-- Client-side working state: the station list and the selected station. -/
structure ClientState where
  stations : List Station
  selected : Option Station
deriving DecidableEq

/-- `result.data`: the snake_case server row read by the success path. -/
structure ServerRow where
  on_air : Option Bool
  inspection_68 : Bool
  date_inspected : Option String
  details : Option String
  unwanted : JVal
  submit_a_request : Option String
deriving DecidableEq

/-- `result.data.unwanted === 'true' || result.data.unwanted === true`. -/
def jvalIsTrue (v : JVal) : Bool :=
  decide (v = JVal.jstr "true") || decide (v = JVal.jbool true)

/-- Reconciliation with the server response (`serverData` spread over the station). -/
def applyServerRow (st : Station) (row : ServerRow) : Station :=
  { st with
      onAir := row.on_air
      inspection68 := some (if row.inspection_68 then "ตรวจแล้ว" else "ยังไม่ตรวจ")
      dateInspected := row.date_inspected
      details := row.details
      unwanted := some (jvalIsTrue row.unwanted)
      submitRequest := row.submit_a_request }

/-- Outcome of the PATCH request as seen by the `.then`/`.catch` handlers:
a 2xx response with a parsed body (`result.data` possibly absent), a non-2xx
response, or a thrown network error. -/
inductive PatchResponse
  | ok (data : Option ServerRow)
  | httpError
  | networkError
deriving DecidableEq

/-- The synchronous part of `handleUpdateStation`: find the original station (return
unchanged if absent), then optimistically merge the updates into every station with
the given id and into the selected station if it has that id — all before the network
request resolves. -/
def applyOptimistic (cs : ClientState) (sid : StationId) (u : StationUpdates) : ClientState :=
  match cs.stations.find? (fun st => decide (st.id = sid)) with
  | none => cs
  | some _ =>
      { stations := cs.stations.map (fun st => if st.id = sid then mergeUpdates st u else st)
        selected :=
          match cs.selected with
          | some sel => if sel.id = sid then some (mergeUpdates sel u) else some sel
          | none => none }

/-- The response continuation: reconcile with the server row on success with data;
on a missing body, a non-success response, or a network error, only log — the
optimistic state is kept, never rolled back. -/
def onPatchResponse (cs : ClientState) (sid : StationId) (resp : PatchResponse) : ClientState :=
  match resp with
  | PatchResponse.ok (some row) =>
      { stations := cs.stations.map (fun st => if st.id = sid then applyServerRow st row else st)
        selected :=
          match cs.selected with
          | some sel => if sel.id = sid then some (applyServerRow sel row) else some sel
          | none => none }
  | PatchResponse.ok none => cs
  | PatchResponse.httpError => cs
  | PatchResponse.networkError => cs

theorem mergeUpdates_id (st : Station) (u : StationUpdates) : (mergeUpdates st u).id = st.id :=
  rfl

theorem find?_map_update (sid : StationId) (u : StationUpdates) :
    ∀ (l : List Station) (st : Station),
      l.find? (fun s => decide (s.id = sid)) = some st →
      (l.map (fun s => if s.id = sid then mergeUpdates s u else s)).find?
          (fun s => decide (s.id = sid)) = some (mergeUpdates st u) := by
  intro l
  induction l with
  | nil => intro st h; simp [List.find?] at h
  | cons a l ih =>
      intro st h
      by_cases ha : a.id = sid
      · have hpa : decide (a.id = sid) = true := decide_eq_true ha
        have hpm : decide ((mergeUpdates a u).id = sid) = true :=
          decide_eq_true (by rw [mergeUpdates_id]; exact ha)
        simp only [List.find?_cons, hpa] at h
        have hst : a = st := Option.some_inj.mp h
        subst hst
        simp only [List.map_cons, if_pos ha, List.find?_cons, hpm]
      · have hpa : decide (a.id = sid) = false := decide_eq_false ha
        simp only [List.find?_cons, hpa] at h
        simp only [List.map_cons, if_neg ha, List.find?_cons, hpa]
        exact ih st h

/-- C3: a user-initiated update (toggle on-air, toggle inspection status, set/clear a
detail tag) is applied to the working copy — and to the selected station when it is the
one updated — immediately and before the network response is processed; and neither a
non-success response nor a thrown network error rolls the optimistic mutation back. -/
theorem optimistic_update_no_rollback (cs : ClientState) (sid : StationId)
    (u : StationUpdates) (st : Station)
    (hfound : cs.stations.find? (fun s => decide (s.id = sid)) = some st) :
    ((applyOptimistic cs sid u).stations.find? (fun s => decide (s.id = sid)) =
      some (mergeUpdates st u)) ∧
    (∀ b, u.onAir = some b → (mergeUpdates st u).onAir = some b) ∧
    (∀ v, u.inspection68 = some v → (mergeUpdates st u).inspection68 = some v) ∧
    (∀ v, u.details = some v → (mergeUpdates st u).details = some v) ∧
    (∀ sel, cs.selected = some sel → sel.id = sid →
      (applyOptimistic cs sid u).selected = some (mergeUpdates sel u)) ∧
    onPatchResponse (applyOptimistic cs sid u) sid PatchResponse.httpError =
      applyOptimistic cs sid u ∧
    onPatchResponse (applyOptimistic cs sid u) sid PatchResponse.networkError =
      applyOptimistic cs sid u := by
  have happ : applyOptimistic cs sid u =
      { stations := cs.stations.map (fun s => if s.id = sid then mergeUpdates s u else s)
        selected :=
          match cs.selected with
          | some sel => if sel.id = sid then some (mergeUpdates sel u) else some sel
          | none => none } := by
    unfold applyOptimistic
    rw [hfound]
  refine ⟨?_, ?_, ?_, ?_, ?_, rfl, rfl⟩
  · rw [happ]
    exact find?_map_update sid u cs.stations st hfound
  · intro b hb; simp [mergeUpdates, hb]
  · intro v hv; simp [mergeUpdates, hv]
  · intro v hv; simp [mergeUpdates, hv]
  · intro sel hsel hid
    rw [happ]
    show (match cs.selected with
      | some s => if s.id = sid then some (mergeUpdates s u) else some s
      | none => none) = some (mergeUpdates sel u)
    rw [hsel]
    simp [hid]

/-- C3 witness data: a one-station client state and an inspection-toggle update. -/
def stationW : Station :=
  { id := StationId.num 1, name := "W", frequency := 95, latitude := 13,
    longitude := 100, city := "Dusit", state := "Bangkok", genre := "Public",
    description := none, inspection68 := some "ยังไม่ตรวจ", dateInspected := none,
    details := none, onAir := some true, unwanted := none, submitRequest := none }

def updW : StationUpdates :=
  { onAir := some false, inspection68 := some "ตรวจแล้ว", details := none }

def csW : ClientState := { stations := [stationW], selected := some stationW }

theorem optimistic_update_no_rollback_witness :
    csW.stations.find? (fun s => decide (s.id = StationId.num 1)) = some stationW ∧
    ((applyOptimistic csW (StationId.num 1) updW).stations.find?
        (fun s => decide (s.id = StationId.num 1)) = some (mergeUpdates stationW updW)) ∧
    (applyOptimistic csW (StationId.num 1) updW).selected =
      some (mergeUpdates stationW updW) ∧
    onPatchResponse (applyOptimistic csW (StationId.num 1) updW) (StationId.num 1)
        PatchResponse.networkError = applyOptimistic csW (StationId.num 1) updW :=
  ⟨rfl,
    (optimistic_update_no_rollback csW (StationId.num 1) updW stationW rfl).1,
    (optimistic_update_no_rollback csW (StationId.num 1) updW stationW rfl).2.2.2.2.1
      stationW rfl rfl,
    (optimistic_update_no_rollback csW (StationId.num 1) updW stationW rfl).2.2.2.2.2.2⟩

/-! ## Per-station PATCH endpoint (`src/app/api/stations/[id]/route.ts`)

The repository holds two snapshots of this route: a prisma-based one (destructures
`onAir`, `inspection68`, `details`, converts the inspection value to a boolean and
derives `date_inspected`) and an earlier supabase-based one (destructures only `onAir`
and `inspection68` and passes them through unchanged).  The model stops at the
database boundary: the outcome is either an error response or the update record sent
to the database, keyed by column name in the insertion order of the source. -/

inductive PatchOutcome
  | badRequest (status : ℕ) (msg : String)
  | dbUpdate (id : ℤ) (updates : List (String × JVal))
deriving DecidableEq

/-- `inspection68 === 'ตรวจแล้ว' || inspection68 === true`. -/
def isInspectedVal (v : JVal) : Bool :=
  decide (v = JVal.jstr "ตรวจแล้ว") || decide (v = JVal.jbool true)

/-- Prisma snapshot, `on_air` and `details` parts of the `updates` object. -/
def prismaBaseUpdates (body : List (String × JVal)) : List (String × JVal) :=
  (match mapGet body "onAir" with
    | some v => [("on_air", v)]
    | none => []) ++
  (match mapGet body "details" with
    | some v => [("details", v)]
    | none => [])

/-- Prisma snapshot, full `updates` object: when `inspection68` is present it is
converted to a boolean, and `date_inspected` is set to the current date when that
boolean is true and cleared to null otherwise. -/
def prismaUpdates (body : List (String × JVal)) (today : String) : List (String × JVal) :=
  prismaBaseUpdates body ++
  (match mapGet body "inspection68" with
    | some v =>
        [("inspection_68", JVal.jbool (isInspectedVal v)),
         ("date_inspected", if isInspectedVal v then JVal.jstr today else JVal.jnull)]
    | none => [])

/-- PATCH, prisma snapshot (`stationId` is the result of `parseInt`, `none` = `NaN`). -/
def patchPrisma (stationId : Option ℤ) (body : List (String × JVal)) (today : String) :
    PatchOutcome :=
  match stationId with
  | none => PatchOutcome.badRequest 400 "Invalid station ID"
  | some sid =>
      if (prismaUpdates body today).isEmpty then
        PatchOutcome.badRequest 400 "No valid fields to update"
      else PatchOutcome.dbUpdate sid (prismaUpdates body today)

/-- Supabase snapshot, `updates` object: `on_air` and `inspection_68` pass through
unchanged; `date_inspected` is never touched. -/
def supabaseUpdates (body : List (String × JVal)) : List (String × JVal) :=
  (match mapGet body "onAir" with
    | some v => [("on_air", v)]
    | none => []) ++
  (match mapGet body "inspection68" with
    | some v => [("inspection_68", v)]
    | none => [])

/-- PATCH, supabase snapshot. -/
def patchSupabase (stationId : Option ℤ) (body : List (String × JVal)) : PatchOutcome :=
  match stationId with
  | none => PatchOutcome.badRequest 400 "Invalid station ID"
  | some sid =>
      if (supabaseUpdates body).isEmpty then
        PatchOutcome.badRequest 400 "No valid fields to update"
      else PatchOutcome.dbUpdate sid (supabaseUpdates body)

theorem mapGet_append_of_none {κ V : Type} [DecidableEq κ] {l1 : List (κ × V)}
    (l2 : List (κ × V)) {k : κ} (h : mapGet l1 k = none) :
    mapGet (l1 ++ l2) k = mapGet l2 k := by
  induction l1 with
  | nil => rfl
  | cons kv rest ih =>
      obtain ⟨k₀, v₀⟩ := kv
      simp only [mapGet, List.cons_append] at h ⊢
      by_cases hk : k₀ = k
      · rw [if_pos hk] at h; cases h
      · rw [if_neg hk] at h ⊢
        exact ih h

theorem prismaBaseUpdates_mapGet_none (body : List (String × JVal)) (k : String)
    (h1 : ¬ ("on_air" = k)) (h2 : ¬ ("details" = k)) :
    mapGet (prismaBaseUpdates body) k = none := by
  unfold prismaBaseUpdates
  cases mapGet body "onAir" <;> cases mapGet body "details" <;>
    simp [mapGet, h1, h2]

/-- C4 (amended, prisma snapshot): a PATCH whose body contains `inspection68` always
reaches the database with `inspection_68` set to the inspected-boolean, with
`date_inspected` stamped to the current date when that boolean is true and cleared to
null when it is false. -/
theorem patch_inspection_stamps_date (sid : ℤ) (body : List (String × JVal))
    (today : String) (v : JVal) (h : mapGet body "inspection68" = some v) :
    ∃ ups, patchPrisma (some sid) body today = PatchOutcome.dbUpdate sid ups ∧
      mapGet ups "inspection_68" = some (JVal.jbool (isInspectedVal v)) ∧
      mapGet ups "date_inspected" =
        some (if isInspectedVal v then JVal.jstr today else JVal.jnull) := by
  have hups : prismaUpdates body today =
      prismaBaseUpdates body ++
        [("inspection_68", JVal.jbool (isInspectedVal v)),
         ("date_inspected", if isInspectedVal v then JVal.jstr today else JVal.jnull)] := by
    unfold prismaUpdates
    rw [h]
  have hnotempty : (prismaUpdates body today).isEmpty = false := by
    rw [hups]
    cases hb : prismaBaseUpdates body <;> simp
  refine ⟨prismaUpdates body today, ?_, ?_, ?_⟩
  · simp only [patchPrisma, hnotempty]
    rfl
  · rw [hups, mapGet_append_of_none _ (prismaBaseUpdates_mapGet_none body _
      (by decide) (by decide))]
    simp [mapGet]
  · rw [hups, mapGet_append_of_none _ (prismaBaseUpdates_mapGet_none body _
      (by decide) (by decide))]
    simp [mapGet]

/-- C4 witness: a PATCH setting `inspection68 = 'ตรวจแล้ว'` reaches the database with
`inspection_68 = true` and `date_inspected` stamped to the current date. -/
theorem patch_inspection_stamps_date_witness :
    ∃ ups, patchPrisma (some 7) [("inspection68", JVal.jstr "ตรวจแล้ว")] "2025-01-01" =
        PatchOutcome.dbUpdate 7 ups ∧
      mapGet ups "inspection_68" =
        some (JVal.jbool (isInspectedVal (JVal.jstr "ตรวจแล้ว"))) ∧
      mapGet ups "date_inspected" =
        some (if isInspectedVal (JVal.jstr "ตรวจแล้ว") then JVal.jstr "2025-01-01"
          else JVal.jnull) :=
  patch_inspection_stamps_date 7 [("inspection68", JVal.jstr "ตรวจแล้ว")] "2025-01-01"
    (JVal.jstr "ตรวจแล้ว") rfl

/-- C4 counterexample: in the supabase snapshot of the same endpoint, a PATCH setting
the inspection status to "inspected" sends only `inspection_68` to the database — no
`date_inspected` is stamped (nor cleared on "not inspected"). -/
theorem patch_supabase_no_date_stamp :
    patchSupabase (some 7) [("inspection68", JVal.jstr "ตรวจแล้ว")] =
      PatchOutcome.dbUpdate 7 [("inspection_68", JVal.jstr "ตรวจแล้ว")] ∧
    mapGet [(("inspection_68" : String), JVal.jstr "ตรวจแล้ว")] "date_inspected" = none :=
  ⟨rfl, rfl⟩

theorem prismaUpdates_keys (body : List (String × JVal)) (today : String) :
    ∀ kv ∈ prismaUpdates body today, kv.1 = "on_air" ∨ kv.1 = "details" ∨
      kv.1 = "inspection_68" ∨ kv.1 = "date_inspected" := by
  intro kv hkv
  unfold prismaUpdates prismaBaseUpdates at hkv
  rcases List.mem_append.mp hkv with hkv1 | hkv2
  · rcases List.mem_append.mp hkv1 with hkva | hkvd
    · cases h1 : mapGet body "onAir" <;> rw [h1] at hkva
      · simp at hkva
      · simp at hkva
        subst hkva
        exact Or.inl rfl
    · cases h2 : mapGet body "details" <;> rw [h2] at hkvd
      · simp at hkvd
      · simp at hkvd
        subst hkvd
        exact Or.inr (Or.inl rfl)
  · cases h3 : mapGet body "inspection68" <;> rw [h3] at hkv2
    · simp at hkv2
    · simp at hkv2
      rcases hkv2 with h | h
      · subst h
        exact Or.inr (Or.inr (Or.inl rfl))
      · subst h
        exact Or.inr (Or.inr (Or.inr rfl))

theorem supabaseUpdates_keys (body : List (String × JVal)) :
    ∀ kv ∈ supabaseUpdates body, kv.1 = "on_air" ∨ kv.1 = "inspection_68" := by
  intro kv hkv
  unfold supabaseUpdates at hkv
  rcases List.mem_append.mp hkv with hkva | hkvi
  · cases h1 : mapGet body "onAir" <;> rw [h1] at hkva
    · simp at hkva
    · simp at hkva
      subst hkva
      exact Or.inl rfl
  · cases h2 : mapGet body "inspection68" <;> rw [h2] at hkvi
    · simp at hkvi
    · simp at hkvi
      subst hkvi
      exact Or.inr rfl

/-- C10: a PATCH whose body has none of the recognized fields (`onAir`,
`inspection68`, `details` in the prisma snapshot; `onAir`, `inspection68` in the
supabase snapshot) is rejected with a 400 "No valid fields to update" and no database
update is performed; and when an update is performed, the record sent to the database
contains only recognized columns, so unrecognized body fields are never persisted. -/
theorem patch_rejects_empty_updates (sid : ℤ) (body : List (String × JVal))
    (today : String) :
    ((mapGet body "onAir" = none ∧ mapGet body "inspection68" = none ∧
        mapGet body "details" = none) →
      patchPrisma (some sid) body today =
        PatchOutcome.badRequest 400 "No valid fields to update") ∧
    ((mapGet body "onAir" = none ∧ mapGet body "inspection68" = none) →
      patchSupabase (some sid) body =
        PatchOutcome.badRequest 400 "No valid fields to update") ∧
    (∀ ups, patchPrisma (some sid) body today = PatchOutcome.dbUpdate sid ups →
      ∀ kv ∈ ups, kv.1 = "on_air" ∨ kv.1 = "details" ∨ kv.1 = "inspection_68" ∨
        kv.1 = "date_inspected") ∧
    (∀ ups, patchSupabase (some sid) body = PatchOutcome.dbUpdate sid ups →
      ∀ kv ∈ ups, kv.1 = "on_air" ∨ kv.1 = "inspection_68") := by
  refine ⟨?_, ?_, ?_, ?_⟩
  · rintro ⟨h1, h2, h3⟩
    have hempty : prismaUpdates body today = [] := by
      unfold prismaUpdates prismaBaseUpdates
      rw [h1, h2, h3]
      rfl
    simp only [patchPrisma, hempty]
    rfl
  · rintro ⟨h1, h2⟩
    have hempty : supabaseUpdates body = [] := by
      unfold supabaseUpdates
      rw [h1, h2]
      rfl
    simp only [patchSupabase, hempty]
    rfl
  · intro ups hup
    simp only [patchPrisma] at hup
    by_cases hemp : (prismaUpdates body today).isEmpty = true
    · rw [if_pos hemp] at hup; cases hup
    · rw [if_neg hemp] at hup
      injection hup with _ hups
      rw [← hups]
      exact prismaUpdates_keys body today
  · intro ups hup
    simp only [patchSupabase] at hup
    by_cases hemp : (supabaseUpdates body).isEmpty = true
    · rw [if_pos hemp] at hup; cases hup
    · rw [if_neg hemp] at hup
      injection hup with _ hups
      rw [← hups]
      exact supabaseUpdates_keys body

/-- C10 witness: a body carrying only an unrecognized field is rejected by both
snapshots with the 400 "No valid fields to update" error. -/
theorem patch_rejects_empty_updates_witness :
    patchPrisma (some 3) [("frequency", JVal.jstr "99.5")] "2025-01-01" =
      PatchOutcome.badRequest 400 "No valid fields to update" ∧
    patchSupabase (some 3) [("frequency", JVal.jstr "99.5")] =
      PatchOutcome.badRequest 400 "No valid fields to update" :=
  ⟨(patch_rejects_empty_updates 3 [("frequency", JVal.jstr "99.5")] "2025-01-01").1
      ⟨rfl, rfl, rfl⟩,
    (patch_rejects_empty_updates 3 [("frequency", JVal.jstr "99.5")] "2025-01-01").2.1
      ⟨rfl, rfl⟩⟩

end MakeItFast
